import Mathlib

/-!
Shallow embedding of the SevaSetu volunteer/NGO platform core
(points ledger, badge evaluator, task lifecycle, project volunteer
roster, leaderboard rank engine), translated from the JavaScript
sources under src/models and src/routes, together with theorems
settling the specification claims.
-/

namespace SevaSetu

/-! ## User data model (src/models/User.js)

Only the fields the gamification core touches are embedded:
`points` (total and the earned log), `badges`, `statistics`
counters and the `isActive` flag. -/

/-- One entry of the append-only `points.earned` log. -/
structure EarnedEntry where
  amount : Int
  reason : String
  project : Option Nat
  deriving DecidableEq

/-- The `points` subdocument: running total plus the earned log. -/
structure UserPoints where
  total : Int
  earned : List EarnedEntry
  deriving DecidableEq

/-- One badge subdocument (name, description, icon). -/
structure Badge where
  name : String
  description : String
  icon : String
  deriving DecidableEq

/-- The `statistics` counters subdocument. -/
structure Statistics where
  projectsCompleted : Int
  tasksCompleted : Int
  hoursVolunteered : Int
  impactScore : Int
  deriving DecidableEq

/-- A user document (the fields relevant to the core). -/
structure User where
  points : UserPoints
  badges : List Badge
  statistics : Statistics
  isActive : Bool
  deriving DecidableEq

/-! ## Badge evaluator (`userSchema.methods.checkAndAwardBadges`) -/

/-- One row of the `badgeThresholds` table in `checkAndAwardBadges`. -/
structure BadgeThreshold where
  points : Int
  name : String
  description : String
  deriving DecidableEq

/-- The `badgeThresholds` array of `checkAndAwardBadges`, verbatim. -/
def badgeThresholds : List BadgeThreshold :=
  [ ⟨100, "First Steps", "Completed first task"⟩,
    ⟨500, "Bronze Contributor", "Earned 500 points"⟩,
    ⟨1000, "Silver Contributor", "Earned 1000 points"⟩,
    ⟨2000, "Gold Contributor", "Earned 2000 points"⟩,
    ⟨5000, "Platinum Contributor", "Earned 5000 points"⟩ ]

/-- JavaScript `s.replace(c, r)` with one-character pattern: replaces
only the first occurrence. -/
def replaceFirstChar : List Char → Char → Char → List Char
  | [], _, _ => []
  | c :: cs, a, b => if c = a then b :: cs else c :: replaceFirstChar cs a b

/-- The icon string `badge-` ++ lower-cased name with its first space
hyphenated, as built in `checkAndAwardBadges`. -/
def badgeIcon (name : String) : String :=
  "badge-" ++ String.mk (replaceFirstChar name.toLower.data ' ' '-')

/-- The body of the `forEach` loop over `badgeThresholds`: push the
badge when the total qualifies and its name is not among the badge
names captured before the loop. -/
def awardStep (points : Int) (existingBadges : List String)
    (bs : List Badge) (bt : BadgeThreshold) : List Badge :=
  if bt.points ≤ points ∧ ¬ existingBadges.contains bt.name then
    bs ++ [⟨bt.name, bt.description, badgeIcon bt.name⟩]
  else
    bs

/-- `userSchema.methods.checkAndAwardBadges`: for each threshold row,
if `points.total` reaches it and the name is not already held
(against the badge-name list computed before the loop), append the
badge. -/
def checkAndAwardBadges (u : User) : User :=
  let points := u.points.total
  let existingBadges := u.badges.map (fun b => b.name)
  { u with badges := badgeThresholds.foldl (awardStep points existingBadges) u.badges }

/-- `userSchema.methods.addPoints`: add `amount` to `points.total`,
append one entry to `points.earned`, then run the badge evaluator.
(The trailing `this.save()` is persistence, out of scope.) -/
def addPoints (u : User) (amount : Int) (reason : String) (projectId : Option Nat) : User :=
  checkAndAwardBadges
    { u with points :=
        { total := u.points.total + amount,
          earned := u.points.earned ++ [⟨amount, reason, projectId⟩] } }

/-- The amounts of an earned log summed, as the spec's invariant reads it. -/
def sumAmounts (l : List EarnedEntry) : Int :=
  (l.map (fun e => e.amount)).sum

/-- One `addPoints` call's arguments, for reasoning about call sequences. -/
structure PointsCall where
  amount : Int
  reason : String
  project : Option Nat
  deriving DecidableEq

/-- Run a sequence of `addPoints` calls left to right. -/
def runAddPoints (u : User) (calls : List PointsCall) : User :=
  calls.foldl (fun v c => addPoints v c.amount c.reason c.project) u

/-! ## Project volunteer roster (src/models/NGO.js, projectSchema) -/

/-- One entry of the project `volunteers` roster. -/
structure Volunteer where
  user : Nat
  role : String
  status : String
  deriving DecidableEq

/-- The `requirements.volunteers` subdocument: capacity and derived count. -/
structure VolunteerReq where
  total : Nat
  current : Nat
  deriving DecidableEq

/-- A project document (the fields the roster core touches). -/
structure Project where
  volunteers : List Volunteer
  reqVolunteers : VolunteerReq
  status : String
  deriving DecidableEq

/-- Error message thrown by `addVolunteer` on a duplicate application. -/
def errAlreadyApplied : String := "User has already applied for this project"

/-- Error message thrown by `addVolunteer` when the project is full. -/
def errProjectFull : String := "Project is full"

/-- Error message thrown by `updateVolunteerStatus` on a missing entry. -/
def errVolunteerNotFound : String := "Volunteer not found in this project"

/-- The `projectSchema.pre` save hook: when the volunteers list was
modified, recompute `requirements.volunteers.current` as the number of
roster entries with status `accepted`. Every roster mutation below goes
through `save`, so the hook is applied on each of them. -/
def recomputeCurrent (p : Project) : Project :=
  { p with reqVolunteers :=
      { p.reqVolunteers with
        current := (p.volunteers.filter (fun v => v.status == "accepted")).length } }

/-- `projectSchema.methods.addVolunteer` (same guards and append as the
`POST /api/projects/:id/apply` route body): duplicate check first, then
capacity check, then push `{user, role, status: applied}` and save.
Both throws happen before any mutation, so on error the project is
returned to the caller unchanged. -/
def addVolunteer (p : Project) (userId : Nat) (role : String) : Except String Project :=
  if (p.volunteers.find? (fun v => v.user == userId)).isSome then
    .error errAlreadyApplied
  else if p.reqVolunteers.total ≤ p.reqVolunteers.current then
    .error errProjectFull
  else
    .ok (recomputeCurrent
      { p with volunteers := p.volunteers ++ [⟨userId, role, "applied"⟩] })

/-- Set the status of the first roster entry matching `userId`
(JavaScript `find` returns the first match and is mutated in place). -/
def setVolunteerStatus : List Volunteer → Nat → String → List Volunteer
  | [], _, _ => []
  | v :: vs, uid, st =>
    if v.user == uid then { v with status := st } :: vs
    else v :: setVolunteerStatus vs uid st

/-- `projectSchema.methods.updateVolunteerStatus`: fail when `userId`
is absent from the roster, otherwise set that entry's status, recompute
`current` as the accepted count, and save (the save hook recomputes the
same value again, so applying `recomputeCurrent` once is the composite). -/
def updateVolunteerStatus (p : Project) (userId : Nat) (status : String) :
    Except String Project :=
  if (p.volunteers.find? (fun v => v.user == userId)).isNone then
    .error errVolunteerNotFound
  else
    .ok (recomputeCurrent
      { p with volunteers := setVolunteerStatus p.volunteers userId status })

/-! ## Task lifecycle (src/unnamed/part_000, taskSchema) -/

/-- One entry of `progress.updates` (append-only log). -/
structure ProgressUpdate where
  message : String
  updatedBy : Nat
  attachments : List String
  deriving DecidableEq

/-- The uploaded-file subdocument of a deliverable. -/
structure FileInfo where
  filename : String
  path : String
  uploadDate : Nat
  deriving DecidableEq

/-- One deliverable subdocument. -/
structure Deliverable where
  id : Nat
  name : String
  description : String
  dtype : String
  status : String
  file : Option FileInfo
  deriving DecidableEq

/-- The task `points` subdocument (`total` recomputed on save). -/
structure TaskPoints where
  base : Int
  bonus : Int
  total : Int
  deriving DecidableEq

/-- The task `timeline` subdocument (dates as abstract instants). -/
structure TaskTimeline where
  startDate : Nat
  dueDate : Nat
  completedDate : Option Nat
  actualHours : Option Int
  deriving DecidableEq

/-- The task `progress` subdocument. -/
structure TaskProgress where
  percentage : Int
  updates : List ProgressUpdate
  deriving DecidableEq

/-- A task document (the fields the lifecycle core touches). -/
structure Task where
  project : Nat
  assignedTo : Option Nat
  status : String
  timeline : TaskTimeline
  progress : TaskProgress
  deliverables : List Deliverable
  points : TaskPoints
  deriving DecidableEq

/-- Error message thrown by `completeDeliverable` on a missing id. -/
def errDeliverableNotFound : String := "Deliverable not found"

/-- The `taskSchema.pre` save hook: recompute
`points.total = points.base + points.bonus`. Every task method below
ends in `this.save()`, so the hook is applied to each result. -/
def taskSave (t : Task) : Task :=
  { t with points := { t.points with total := t.points.base + t.points.bonus } }

/-- `taskSchema.methods.updateProgress`: clamp the percentage into
[0,100], append one progress update, and — when the raw argument is
≥ 100 and the status is not already `completed` — transition to
`completed` stamping `completedDate = now`. -/
def updateProgress (t : Task) (percentage : Int) (message : String)
    (updatedBy : Nat) (attachments : List String) (now : Nat) : Task :=
  let t1 :=
    { t with progress :=
        { percentage := min 100 (max 0 percentage),
          updates := t.progress.updates ++ [⟨message, updatedBy, attachments⟩] } }
  let t2 :=
    if 100 ≤ percentage ∧ t1.status ≠ "completed" then
      { t1 with status := "completed",
                timeline := { t1.timeline with completedDate := some now } }
    else t1
  taskSave t2

/-- `taskSchema.methods.assignTo`: set the assignee and force the
status to `assigned` (no source-state guard, `completedDate` untouched). -/
def assignTo (t : Task) (userId : Nat) : Task :=
  taskSave { t with assignedTo := some userId, status := "assigned" }

/-- `taskSchema.methods.complete`: force status to `completed`, stamp
`completedDate = now`, set the percentage to 100 and optionally record
`actualHours`. -/
def complete (t : Task) (actualHours : Option Int) (now : Nat) : Task :=
  let t1 :=
    { t with status := "completed",
             timeline := { t.timeline with completedDate := some now },
             progress := { t.progress with percentage := 100 } }
  let t2 :=
    match actualHours with
    | some h => { t1 with timeline := { t1.timeline with actualHours := some h } }
    | none => t1
  taskSave t2

/-- Mark the first deliverable matching `did` completed, attaching the
file when one is supplied (JavaScript mutates the subdocument returned
by `deliverables.id(...)`, the first entry with that id). -/
def setDeliverableCompleted : List Deliverable → Nat → Option FileInfo → List Deliverable
  | [], _, _ => []
  | d :: ds, did, f =>
    if d.id == did then
      (match f with
       | some fi => { d with status := "completed", file := some fi }
       | none => { d with status := "completed" }) :: ds
    else d :: setDeliverableCompleted ds did f

/-- JavaScript `Math.round` of the non-negative fraction `num / den`
(round half up). -/
def jsRound (num den : Nat) : Nat :=
  (2 * num + den) / (2 * den)

/-- `taskSchema.methods.completeDeliverable`: fail when no deliverable
has the given id; otherwise mark it completed (recording the file when
given) and recompute `progress.percentage` as
`Math.round(completedCount / deliverables.length * 100)`. -/
def completeDeliverable (t : Task) (did : Nat) (file : Option FileInfo) :
    Except String Task :=
  if (t.deliverables.find? (fun d => d.id == did)).isNone then
    .error errDeliverableNotFound
  else
    let ds := setDeliverableCompleted t.deliverables did file
    let completedCount := (ds.filter (fun d => d.status == "completed")).length
    .ok (taskSave
      { t with deliverables := ds,
               progress := { t.progress with
                 percentage := Int.ofNat (jsRound (completedCount * 100) ds.length) } })

/-! ## Leaderboard rank engine (`GET /api/leaderboard/user/:id/rank`,
src/routes/projects.js) -/

/-- The three `type` query values the rank route computes. -/
inductive Metric
  | points
  | projects
  | hours
  deriving DecidableEq

/-- The field each `type` branch compares (`points.total`,
`statistics.projectsCompleted`, `statistics.hoursVolunteered`). -/
def metricValue : Metric → User → Int
  | .points, u => u.points.total
  | .projects, u => u.statistics.projectsCompleted
  | .hours, u => u.statistics.hoursVolunteered

/-- JavaScript `Math.round(num / den)` for `den > 0`:
`floor(num / den + 1 / 2)` (halves round toward +infinity). -/
def jsRoundInt (num den : Int) : Int :=
  Int.fdiv (2 * num + den) (2 * den)

/-- `higherUsers + 1` of the rank route: one plus the number of
active users whose metric value is strictly greater. -/
def userRank (users : List User) (u : User) (m : Metric) : Nat :=
  (users.filter (fun v => v.isActive && metricValue m u < metricValue m v)).length + 1

/-- `total` of the rank route: the number of active users with a
strictly positive metric value. -/
def activeWithMetric (users : List User) (m : Metric) : Nat :=
  (users.filter (fun v => v.isActive && 0 < metricValue m v)).length

/-- `percentile` of the rank route:
`total > 0 ? Math.round(((total - rank + 1) / total) * 100) : 0`. -/
def userPercentile (users : List User) (u : User) (m : Metric) : Int :=
  let total := activeWithMetric users m
  let rank := userRank users u m
  if 0 < total then jsRoundInt (((total : Int) - rank + 1) * 100) total else 0

/-! ## Task-complete workflow (`PUT /api/tasks/:id/complete`,
src/routes/tasks.js) -/

/-- The reason string passed to `addPoints` by the complete route. -/
def reasonTaskCompleted : String := "Task completed"

/-- The body of `PUT /api/tasks/:id/complete` after its permission
checks: run `task.complete(actualHours)`, then — when the task has an
assignee and that user is found — credit `task.points.total` with
reason `Task completed`, increment `statistics.tasksCompleted`, and
add `actualHours` to `statistics.hoursVolunteered` when truthy
(JavaScript `if (actualHours)`: 0 is falsy). `volunteer` is the user
the route looked up by `task.assignedTo`. No check of the task's prior
status is performed anywhere in the route. -/
def completeTaskRoute (t : Task) (volunteer : User) (actualHours : Option Int)
    (now : Nat) : Task × User :=
  let t1 := complete t actualHours now
  match t1.assignedTo with
  | none => (t1, volunteer)
  | some _ =>
    let v1 := addPoints volunteer t1.points.total reasonTaskCompleted (some t1.project)
    let v2 :=
      { v1 with statistics :=
          { v1.statistics with tasksCompleted := v1.statistics.tasksCompleted + 1 } }
    let v3 :=
      match actualHours with
      | some h =>
        if h ≠ 0 then
          { v2 with statistics :=
              { v2.statistics with hoursVolunteered := v2.statistics.hoursVolunteered + h } }
        else v2
      | none => v2
    (t1, v3)

/-! ## Helper lemmas -/

/-- The badge a threshold row turns into when awarded. -/
def mkBadge (bt : BadgeThreshold) : Badge :=
  ⟨bt.name, bt.description, badgeIcon bt.name⟩

/-- A threshold row qualifies when the total reaches it and its name is
not among the captured existing names. -/
def qualifies (points : Int) (existing : List String) (bt : BadgeThreshold) : Bool :=
  decide (bt.points ≤ points ∧ ¬ existing.contains bt.name)

theorem awardStep_eq (points : Int) (existing : List String)
    (bs : List Badge) (bt : BadgeThreshold) :
    awardStep points existing bs bt =
      if qualifies points existing bt then bs ++ [mkBadge bt] else bs := by
  by_cases h : bt.points ≤ points ∧ ¬ existing.contains bt.name
  · simp [awardStep, qualifies, mkBadge, h]
  · simp [awardStep, qualifies, mkBadge, h]

theorem awardFold_eq (points : Int) (existing : List String)
    (bs : List Badge) (ts : List BadgeThreshold) :
    ts.foldl (awardStep points existing) bs
      = bs ++ (ts.filter (qualifies points existing)).map mkBadge := by
  induction ts generalizing bs with
  | nil => simp
  | cons bt ts ih =>
    rw [List.foldl_cons, awardStep_eq]
    by_cases h : qualifies points existing bt
    · simp only [h, if_true, List.filter_cons_of_pos h, List.map_cons, ih,
        List.append_assoc, List.singleton_append]
    · simp only [h, if_false, Bool.false_eq_true,
        List.filter_cons_of_neg (by simpa using h), ih]

theorem checkAndAwardBadges_badges (u : User) :
    (checkAndAwardBadges u).badges
      = u.badges ++ (badgeThresholds.filter
          (qualifies u.points.total (u.badges.map (fun b => b.name)))).map mkBadge := by
  simp [checkAndAwardBadges, awardFold_eq]

theorem checkAndAwardBadges_points (u : User) :
    (checkAndAwardBadges u).points = u.points := rfl

theorem checkAndAwardBadges_statistics (u : User) :
    (checkAndAwardBadges u).statistics = u.statistics := rfl

theorem addPoints_points (u : User) (a : Int) (r : String) (p : Option Nat) :
    (addPoints u a r p).points
      = ⟨u.points.total + a, u.points.earned ++ [⟨a, r, p⟩]⟩ := rfl

theorem sumAmounts_append (l₁ l₂ : List EarnedEntry) :
    sumAmounts (l₁ ++ l₂) = sumAmounts l₁ + sumAmounts l₂ := by
  simp [sumAmounts]

theorem runAddPoints_structure (u : User) (calls : List PointsCall) :
    (runAddPoints u calls).points.earned
        = u.points.earned ++ calls.map (fun c => EarnedEntry.mk c.amount c.reason c.project)
      ∧ (runAddPoints u calls).points.total
        = u.points.total + (calls.map (fun c => c.amount)).sum := by
  induction calls generalizing u with
  | nil => simp [runAddPoints]
  | cons c cs ih =>
    have h := ih (addPoints u c.amount c.reason c.project)
    constructor
    · rw [runAddPoints, List.foldl_cons, ← runAddPoints, h.1, addPoints_points]
      simp
    · rw [runAddPoints, List.foldl_cons, ← runAddPoints, h.2, addPoints_points]
      simp
      ring

/-! ## Claim theorems -/

/-- C1: starting from any user whose `points.total` equals the sum of
the amounts in `points.earned`, any sequence of `addPoints` calls
leaves the earned log equal to the original log with exactly one entry
appended per call in order (so the call count is the appended length,
and existing entries are never edited or reordered), leaves
`points.total` equal to the original total plus the sum of the
appended amounts, and preserves the total-equals-sum invariant. -/
theorem addPoints_ledger (u : User) (calls : List PointsCall)
    (h : u.points.total = sumAmounts u.points.earned) :
    (runAddPoints u calls).points.earned
        = u.points.earned ++ calls.map (fun c => EarnedEntry.mk c.amount c.reason c.project)
      ∧ (runAddPoints u calls).points.earned.length
        = u.points.earned.length + calls.length
      ∧ (runAddPoints u calls).points.total
        = u.points.total + (calls.map (fun c => c.amount)).sum
      ∧ (runAddPoints u calls).points.total
        = sumAmounts (runAddPoints u calls).points.earned := by
  obtain ⟨he, ht⟩ := runAddPoints_structure u calls
  refine ⟨he, by simp [he], ht, ?_⟩
  rw [he, ht, sumAmounts_append, h]
  congr 1
  simp only [sumAmounts, List.map_map]
  rfl

/-- A fresh user: zero total, empty log, no badges. -/
def demoUser : User :=
  ⟨⟨0, []⟩, [], ⟨0, 0, 0, 0⟩, true⟩

/-- A sample sequence of `addPoints` calls. -/
def demoCalls : List PointsCall :=
  [⟨150, reasonTaskCompleted, none⟩, ⟨400, reasonTaskCompleted, some 7⟩]

/-- Witness for C1 at a fresh user and two concrete calls. -/
theorem addPoints_ledger_witness :
    demoUser.points.total = sumAmounts demoUser.points.earned
      ∧ ((runAddPoints demoUser demoCalls).points.earned
            = demoUser.points.earned
                ++ demoCalls.map (fun c => EarnedEntry.mk c.amount c.reason c.project)
          ∧ (runAddPoints demoUser demoCalls).points.earned.length
            = demoUser.points.earned.length + demoCalls.length
          ∧ (runAddPoints demoUser demoCalls).points.total
            = demoUser.points.total + (demoCalls.map (fun c => c.amount)).sum
          ∧ (runAddPoints demoUser demoCalls).points.total
            = sumAmounts (runAddPoints demoUser demoCalls).points.earned) :=
  ⟨rfl, addPoints_ledger demoUser demoCalls rfl⟩

theorem contains_iff_mem (l : List String) (s : String) :
    l.contains s = true ↔ s ∈ l := by
  simp

set_option maxRecDepth 4096 in
theorem badgeThreshold_names_nodup :
    (badgeThresholds.map (fun bt => bt.name)).Nodup := by
  decide

/-- C2: the badge evaluator appends exactly the badges whose threshold
is reached by `points.total` and whose name is not already held (in
table order, never touching existing badges, hence never removing
one); running it a second time at the same total changes nothing; and
when the existing badge names are distinct, they stay distinct. -/
theorem checkAndAwardBadges_spec (u : User) :
    (checkAndAwardBadges u).badges
        = u.badges
          ++ (badgeThresholds.filter
                (qualifies u.points.total (u.badges.map (fun b => b.name)))).map mkBadge
      ∧ (checkAndAwardBadges u).badges.map (fun b => b.name)
        = u.badges.map (fun b => b.name)
          ++ (badgeThresholds.filter
                (qualifies u.points.total (u.badges.map (fun b => b.name)))).map
              (fun bt => bt.name)
      ∧ checkAndAwardBadges (checkAndAwardBadges u) = checkAndAwardBadges u
      ∧ ((u.badges.map (fun b => b.name)).Nodup →
          ((checkAndAwardBadges u).badges.map (fun b => b.name)).Nodup) := by
  have hb := checkAndAwardBadges_badges u
  have hnames : (checkAndAwardBadges u).badges.map (fun b => b.name)
      = u.badges.map (fun b => b.name)
        ++ (badgeThresholds.filter
              (qualifies u.points.total (u.badges.map (fun b => b.name)))).map
            (fun bt => bt.name) := by
    rw [hb]
    simp only [List.map_append, List.map_map]
    rfl
  refine ⟨hb, hnames, ?_, ?_⟩
  · have hpoints : (checkAndAwardBadges u).points.total = u.points.total := rfl
    have hfilter : badgeThresholds.filter
        (qualifies u.points.total
          ((checkAndAwardBadges u).badges.map (fun b => b.name))) = [] := by
      rw [List.filter_eq_nil_iff]
      intro bt hbt
      rw [hnames]
      simp only [qualifies, decide_eq_true_eq]
      rintro ⟨hle, hnc⟩
      apply hnc
      rw [contains_iff_mem, List.mem_append]
      by_cases hmem : bt.name ∈ u.badges.map (fun b => b.name)
      · exact Or.inl hmem
      · refine Or.inr (List.mem_map.mpr ⟨bt, List.mem_filter.mpr ⟨hbt, ?_⟩, rfl⟩)
        simp only [qualifies, decide_eq_true_eq]
        exact ⟨hle, fun hc => hmem ((contains_iff_mem _ _).mp hc)⟩
    have hb2 := checkAndAwardBadges_badges (checkAndAwardBadges u)
    rw [hpoints, hfilter] at hb2
    simp only [List.map_nil, List.append_nil] at hb2
    calc checkAndAwardBadges (checkAndAwardBadges u)
        = { checkAndAwardBadges u with
            badges := (checkAndAwardBadges (checkAndAwardBadges u)).badges } := rfl
      _ = checkAndAwardBadges u := by rw [hb2]
  · intro hnd
    rw [hnames]
    rw [List.nodup_append]
    refine ⟨hnd, ?_, ?_⟩
    · exact List.Nodup.sublist
        (List.Sublist.map _ (List.filter_sublist badgeThresholds))
        badgeThreshold_names_nodup
    · intro s hs hs2
      obtain ⟨bt, hbt, rfl⟩ := List.mem_map.mp hs2
      have hq := (List.mem_filter.mp hbt).2
      simp only [qualifies, decide_eq_true_eq] at hq
      exact hq.2 ((contains_iff_mem _ _).mpr hs)

/-- A user with 550 total points already holding `First Steps`. -/
def demoBadgeUser : User :=
  ⟨⟨550, [⟨150, reasonTaskCompleted, none⟩, ⟨400, reasonTaskCompleted, none⟩]⟩,
   [mkBadge ⟨100, "First Steps", "Completed first task"⟩], ⟨0, 0, 0, 0⟩, true⟩

/-- Witness for C2 at a concrete user holding one badge
(`First Steps`) with 550 points, discharging the distinct-names
hypothesis of the last conjunct there. -/
theorem checkAndAwardBadges_spec_witness :
    (checkAndAwardBadges demoBadgeUser).badges
        = demoBadgeUser.badges
          ++ (badgeThresholds.filter
                (qualifies demoBadgeUser.points.total
                  (demoBadgeUser.badges.map (fun b => b.name)))).map mkBadge
      ∧ checkAndAwardBadges (checkAndAwardBadges demoBadgeUser)
        = checkAndAwardBadges demoBadgeUser
      ∧ ((checkAndAwardBadges demoBadgeUser).badges.map (fun b => b.name)).Nodup :=
  ⟨(checkAndAwardBadges_spec demoBadgeUser).1,
   (checkAndAwardBadges_spec demoBadgeUser).2.2.1,
   (checkAndAwardBadges_spec demoBadgeUser).2.2.2 (by decide)⟩

/-- The number of roster entries with status `accepted`. -/
def acceptedCount (vs : List Volunteer) : Nat :=
  (vs.filter (fun v => v.status == "accepted")).length

theorem recomputeCurrent_invariant (p : Project) :
    (recomputeCurrent p).reqVolunteers.current
      = acceptedCount (recomputeCurrent p).volunteers := rfl

/-- C3: after any successful roster mutation — `addVolunteer` (the
apply operation) or `updateVolunteerStatus` — the derived counter
`requirements.volunteers.current` equals the number of roster entries
whose status is `accepted`. -/
theorem roster_current_invariant (p : Project) (uid : Nat) (role st : String) :
    (∀ q, addVolunteer p uid role = Except.ok q →
        q.reqVolunteers.current = acceptedCount q.volunteers)
    ∧ (∀ q, updateVolunteerStatus p uid st = Except.ok q →
        q.reqVolunteers.current = acceptedCount q.volunteers) := by
  constructor
  · intro q hq
    unfold addVolunteer at hq
    split at hq
    · exact absurd hq (by simp)
    · split at hq
      · exact absurd hq (by simp)
      · cases hq
        exact recomputeCurrent_invariant _
  · intro q hq
    unfold updateVolunteerStatus at hq
    split at hq
    · exact absurd hq (by simp)
    · cases hq
      exact recomputeCurrent_invariant _

/-- A project with capacity 3 and one accepted volunteer. -/
def demoProject : Project :=
  ⟨[⟨1, "volunteer", "accepted"⟩], ⟨3, 1⟩, "active"⟩

/-- Witness for C3: applying user 2 to `demoProject` succeeds and the
resulting counter equals the accepted count; accepting user 2 then
keeps the invariant as well. -/
theorem roster_current_invariant_witness :
    addVolunteer demoProject 2 "volunteer"
        = Except.ok ⟨[⟨1, "volunteer", "accepted"⟩, ⟨2, "volunteer", "applied"⟩],
                     ⟨3, 1⟩, "active"⟩
      ∧ (⟨[⟨1, "volunteer", "accepted"⟩, ⟨2, "volunteer", "applied"⟩],
          ⟨3, 1⟩, "active"⟩ : Project).reqVolunteers.current
        = acceptedCount (⟨[⟨1, "volunteer", "accepted"⟩, ⟨2, "volunteer", "applied"⟩],
                          ⟨3, 1⟩, "active"⟩ : Project).volunteers
      ∧ updateVolunteerStatus demoProject 1 "rejected"
        = Except.ok ⟨[⟨1, "volunteer", "rejected"⟩], ⟨3, 0⟩, "active"⟩
      ∧ (⟨[⟨1, "volunteer", "rejected"⟩], ⟨3, 0⟩, "active"⟩ : Project).reqVolunteers.current
        = acceptedCount (⟨[⟨1, "volunteer", "rejected"⟩], ⟨3, 0⟩,
                          "active"⟩ : Project).volunteers :=
  ⟨rfl,
   (roster_current_invariant demoProject 2 "volunteer" "rejected").1 _ rfl,
   rfl,
   (roster_current_invariant demoProject 1 "volunteer" "rejected").2 _ rfl⟩

/-- C4: the apply operation fails with the duplicate-application error
whenever the user is already on the roster with any status; otherwise,
when the project is at or over capacity, it fails with the
project-full error; otherwise it succeeds, appending exactly one
roster entry `{user, role, status: applied}` and changing nothing
else of the roster. In the failure cases no project state is produced
(the method throws before mutating, leaving the document unchanged). -/
theorem addVolunteer_apply_spec (p : Project) (uid : Nat) (role : String) :
    ((∃ v ∈ p.volunteers, v.user = uid) →
        addVolunteer p uid role = Except.error errAlreadyApplied)
    ∧ ((¬ ∃ v ∈ p.volunteers, v.user = uid) →
        p.reqVolunteers.total ≤ p.reqVolunteers.current →
        addVolunteer p uid role = Except.error errProjectFull)
    ∧ ((¬ ∃ v ∈ p.volunteers, v.user = uid) →
        p.reqVolunteers.current < p.reqVolunteers.total →
        ∃ q, addVolunteer p uid role = Except.ok q
          ∧ q.volunteers = p.volunteers ++ [⟨uid, role, "applied"⟩]) := by
  have hfind : (p.volunteers.find? (fun v => v.user == uid)).isSome
      ↔ ∃ v ∈ p.volunteers, v.user = uid := by
    rw [List.find?_isSome]
    simp
  refine ⟨?_, ?_, ?_⟩
  · intro hmem
    unfold addVolunteer
    rw [if_pos (hfind.mpr hmem)]
  · intro hmem hfull
    unfold addVolunteer
    rw [if_neg (fun hs => hmem (hfind.mp hs)), if_pos hfull]
  · intro hmem hroom
    unfold addVolunteer
    rw [if_neg (fun hs => hmem (hfind.mp hs)), if_neg (not_le.mpr hroom)]
    exact ⟨_, rfl, rfl⟩

/-- A project at capacity (1 of 1 accepted). -/
def demoFullProject : Project :=
  ⟨[⟨1, "volunteer", "accepted"⟩], ⟨1, 1⟩, "active"⟩

/-- Witness for C4 at concrete projects: duplicate application by user
1, capacity-exceeded application by user 2 to the full project, and a
successful application by user 2 to the roomy project. -/
theorem addVolunteer_apply_spec_witness :
    addVolunteer demoProject 1 "volunteer" = Except.error errAlreadyApplied
      ∧ addVolunteer demoFullProject 2 "volunteer" = Except.error errProjectFull
      ∧ (∃ q, addVolunteer demoProject 2 "volunteer" = Except.ok q
          ∧ q.volunteers = demoProject.volunteers ++ [⟨2, "volunteer", "applied"⟩]) :=
  ⟨(addVolunteer_apply_spec demoProject 1 "volunteer").1
      ⟨⟨1, "volunteer", "accepted"⟩, by simp [demoProject], rfl⟩,
   (addVolunteer_apply_spec demoFullProject 2 "volunteer").2.1
      (by simp [demoFullProject]) (by simp [demoFullProject]),
   (addVolunteer_apply_spec demoProject 2 "volunteer").2.2
      (by simp [demoProject]) (by simp [demoProject])⟩

theorem clamp_eq_100_iff (pct : Int) : min 100 (max 0 pct) = 100 ↔ 100 ≤ pct := by
  omega

theorem updateProgress_percentage (t : Task) (pct : Int) (msg : String)
    (author : Nat) (att : List String) (now : Nat) :
    (updateProgress t pct msg author att now).progress.percentage
      = min 100 (max 0 pct) := by
  simp only [updateProgress, taskSave]
  split <;> rfl

theorem updateProgress_updates (t : Task) (pct : Int) (msg : String)
    (author : Nat) (att : List String) (now : Nat) :
    (updateProgress t pct msg author att now).progress.updates
      = t.progress.updates ++ [⟨msg, author, att⟩] := by
  simp only [updateProgress, taskSave]
  split <;> rfl

theorem updateProgress_transition (t : Task) (pct : Int) (msg : String)
    (author : Nat) (att : List String) (now : Nat)
    (h : 100 ≤ pct ∧ t.status ≠ "completed") :
    (updateProgress t pct msg author att now).status = "completed"
      ∧ (updateProgress t pct msg author att now).timeline.completedDate = some now := by
  simp only [updateProgress, taskSave]
  rw [if_pos h]
  exact ⟨rfl, rfl⟩

theorem updateProgress_no_transition (t : Task) (pct : Int) (msg : String)
    (author : Nat) (att : List String) (now : Nat)
    (h : ¬ (100 ≤ pct ∧ t.status ≠ "completed")) :
    (updateProgress t pct msg author att now).status = t.status
      ∧ (updateProgress t pct msg author att now).timeline.completedDate
        = t.timeline.completedDate := by
  simp only [updateProgress, taskSave]
  rw [if_neg h]
  exact ⟨rfl, rfl⟩

theorem updateProgress_at_100 (t : Task) (msg : String)
    (author : Nat) (att : List String) (now : Nat)
    (hinv : t.status = "completed" → t.timeline.completedDate.isSome = true) :
    (updateProgress t 100 msg author att now).status = "completed"
      ∧ (updateProgress t 100 msg author att now).timeline.completedDate.isSome
        = true := by
  by_cases hc : t.status = "completed"
  · obtain ⟨hs, hd⟩ := updateProgress_no_transition t 100 msg author att now
      (by simp [hc])
    rw [hs, hd]
    exact ⟨hc, hinv hc⟩
  · obtain ⟨hs, hd⟩ := updateProgress_transition t 100 msg author att now
      ⟨le_refl 100, hc⟩
    rw [hs, hd]
    exact ⟨rfl, rfl⟩

/-- C5: `updateProgress` stores the percentage clamped into [0,100],
appends exactly one progress-update record, and transitions the status
to `completed` stamping `completedDate = now` exactly when the clamped
value reaches 100 and the status was not `completed` already (status
and `completedDate` are untouched otherwise); under the data-model
invariant that a completed task carries a `completedDate`, calling it
with 100 always ends with status `completed` and a `completedDate`
set, and a repeated call with 100 keeps both (idempotent on status). -/
theorem updateProgress_spec (t : Task) (pct : Int) (msg msg2 : String)
    (author author2 : Nat) (att att2 : List String) (now now2 : Nat)
    (hinv : t.status = "completed" → t.timeline.completedDate.isSome = true) :
    (updateProgress t pct msg author att now).progress.percentage
        = min 100 (max 0 pct)
      ∧ (updateProgress t pct msg author att now).progress.updates
        = t.progress.updates ++ [⟨msg, author, att⟩]
      ∧ (min 100 (max 0 pct) = 100 ∧ t.status ≠ "completed" →
          (updateProgress t pct msg author att now).status = "completed"
          ∧ (updateProgress t pct msg author att now).timeline.completedDate
            = some now)
      ∧ (¬ (min 100 (max 0 pct) = 100 ∧ t.status ≠ "completed") →
          (updateProgress t pct msg author att now).status = t.status
          ∧ (updateProgress t pct msg author att now).timeline.completedDate
            = t.timeline.completedDate)
      ∧ (pct = 100 →
          (updateProgress t pct msg author att now).status = "completed"
          ∧ (updateProgress t pct msg author att now).timeline.completedDate.isSome
            = true
          ∧ (updateProgress (updateProgress t pct msg author att now)
              100 msg2 author2 att2 now2).status = "completed"
          ∧ (updateProgress (updateProgress t pct msg author att now)
              100 msg2 author2 att2 now2).timeline.completedDate.isSome = true) := by
  refine ⟨updateProgress_percentage t pct msg author att now,
          updateProgress_updates t pct msg author att now, ?_, ?_, ?_⟩
  · intro h
    exact updateProgress_transition t pct msg author att now
      ⟨(clamp_eq_100_iff pct).mp h.1, h.2⟩
  · intro h
    refine updateProgress_no_transition t pct msg author att now (fun hc => h ?_)
    exact ⟨(clamp_eq_100_iff pct).mpr hc.1, hc.2⟩
  · rintro rfl
    obtain ⟨h1, h2⟩ := updateProgress_at_100 t msg author att now hinv
    obtain ⟨h3, h4⟩ := updateProgress_at_100 (updateProgress t 100 msg author att now)
      msg2 author2 att2 now2 (fun _ => h2)
    exact ⟨h1, h2, h3, h4⟩

/-- A pending task with one empty deliverable list, used as witness input. -/
def demoTask : Task :=
  ⟨5, some 9, "pending", ⟨0, 10, none, none⟩, ⟨20, []⟩, [], ⟨30, 5, 35⟩⟩

/-- Witness for C5 at a concrete pending task and percentage 100. -/
theorem updateProgress_spec_witness :
    (updateProgress demoTask 100 reasonTaskCompleted 9 [] 3).progress.percentage
        = min 100 (max 0 (100 : Int))
      ∧ (updateProgress demoTask 100 reasonTaskCompleted 9 [] 3).progress.updates
        = demoTask.progress.updates ++ [⟨reasonTaskCompleted, 9, []⟩]
      ∧ (min 100 (max 0 (100 : Int)) = 100 ∧ demoTask.status ≠ "completed" →
          (updateProgress demoTask 100 reasonTaskCompleted 9 [] 3).status = "completed"
          ∧ (updateProgress demoTask 100 reasonTaskCompleted 9 [] 3).timeline.completedDate
            = some 3)
      ∧ (¬ (min 100 (max 0 (100 : Int)) = 100 ∧ demoTask.status ≠ "completed") →
          (updateProgress demoTask 100 reasonTaskCompleted 9 [] 3).status
            = demoTask.status
          ∧ (updateProgress demoTask 100 reasonTaskCompleted 9 [] 3).timeline.completedDate
            = demoTask.timeline.completedDate)
      ∧ ((100 : Int) = 100 →
          (updateProgress demoTask 100 reasonTaskCompleted 9 [] 3).status = "completed"
          ∧ (updateProgress demoTask 100 reasonTaskCompleted 9 [] 3).timeline.completedDate.isSome
            = true
          ∧ (updateProgress (updateProgress demoTask 100 reasonTaskCompleted 9 [] 3)
              100 reasonTaskCompleted 9 [] 4).status = "completed"
          ∧ (updateProgress (updateProgress demoTask 100 reasonTaskCompleted 9 [] 3)
              100 reasonTaskCompleted 9 [] 4).timeline.completedDate.isSome = true) :=
  updateProgress_spec demoTask 100 reasonTaskCompleted reasonTaskCompleted 9 9 [] [] 3 4
    (by simp [demoTask])

theorem setDeliverableCompleted_length (l : List Deliverable) (did : Nat)
    (f : Option FileInfo) :
    (setDeliverableCompleted l did f).length = l.length := by
  induction l with
  | nil => rfl
  | cons d ds ih =>
    unfold setDeliverableCompleted
    split
    · split <;> simp
    · simp [ih]

theorem filter_or_id_of_absent (l : List Deliverable) (did : Nat)
    (h : ∀ d ∈ l, d.id ≠ did) :
    l.filter (fun d => d.status == "completed" || d.id == did)
      = l.filter (fun d => d.status == "completed") := by
  apply List.filter_congr
  intro d hd
  have := h d hd
  simp [this]

theorem setDeliverableCompleted_completed_count (l : List Deliverable)
    (did : Nat) (f : Option FileInfo)
    (hnd : (l.map (fun d => d.id)).Nodup) :
    ((setDeliverableCompleted l did f).filter
        (fun d => d.status == "completed")).length
      = (l.filter (fun d => d.status == "completed" || d.id == did)).length := by
  induction l with
  | nil => rfl
  | cons d ds ih =>
    simp only [List.map_cons, List.nodup_cons] at hnd
    unfold setDeliverableCompleted
    by_cases hid : d.id = did
    · rw [if_pos (by simp [hid])]
      have habs : ∀ e ∈ ds, e.id ≠ did := by
        intro e he hedid
        exact hnd.1 (List.mem_map.mpr ⟨e, he, by rw [hedid, hid]⟩)
      have hfilter := filter_or_id_of_absent ds did habs
      split
      · simp [List.filter_cons, hid, hfilter]
      · simp [List.filter_cons, hid, hfilter]
    · rw [if_neg (by simp [hid])]
      simp only [List.filter_cons]
      by_cases hst : d.status = "completed"
      · simp [hst, ih hnd.2]
      · simp [hst, hid, ih hnd.2]

theorem setDeliverableCompleted_target (l : List Deliverable) (did : Nat)
    (f : Option FileInfo) (hnd : (l.map (fun d => d.id)).Nodup) :
    ∀ d ∈ setDeliverableCompleted l did f, d.id = did → d.status = "completed" := by
  induction l with
  | nil => intro d hd; simp [setDeliverableCompleted] at hd
  | cons d ds ih =>
    simp only [List.map_cons, List.nodup_cons] at hnd
    intro e he hedid
    unfold setDeliverableCompleted at he
    by_cases hid : d.id = did
    · rw [if_pos (by simp [hid])] at he
      rcases List.mem_cons.mp he with h | h
      · subst h
        split <;> rfl
      · exact absurd (List.mem_map.mpr ⟨e, h, by rw [hedid, hid]⟩) hnd.1
    · rw [if_neg (by simp [hid])] at he
      rcases List.mem_cons.mp he with h | h
      · subst h; exact absurd hedid hid
      · exact ih hnd.2 e h hedid

theorem setDeliverableCompleted_other (l : List Deliverable) (did : Nat)
    (f : Option FileInfo) :
    ∀ d ∈ l, d.id ≠ did → d ∈ setDeliverableCompleted l did f := by
  induction l with
  | nil => intro d hd; simp at hd
  | cons d ds ih =>
    intro e he hedid
    unfold setDeliverableCompleted
    rcases List.mem_cons.mp he with h | h
    · subst h
      rw [if_neg (by simp [hedid])]
      exact List.mem_cons_self _ _
    · split
      · exact List.mem_cons_of_mem _ h
      · exact List.mem_cons_of_mem _ (ih e h hedid)

/-- C7: on a task whose deliverable ids are distinct, completing an
existing deliverable succeeds, keeps the deliverable count, marks the
targeted deliverable `completed`, leaves every other deliverable
untouched, and overwrites `progress.percentage` with
`Math.round(100 * completedCount / totalCount)` computed from the
deliverables alone (the previous percentage does not appear in the
result). -/
theorem completeDeliverable_spec (t : Task) (did : Nat) (file : Option FileInfo)
    (hmem : ∃ d ∈ t.deliverables, d.id = did)
    (hnd : (t.deliverables.map (fun d => d.id)).Nodup) :
    ∃ q, completeDeliverable t did file = Except.ok q
      ∧ q.deliverables.length = t.deliverables.length
      ∧ (∀ d ∈ q.deliverables, d.id = did → d.status = "completed")
      ∧ (∀ d ∈ t.deliverables, d.id ≠ did → d ∈ q.deliverables)
      ∧ q.progress.percentage
        = Int.ofNat (jsRound
            ((t.deliverables.filter
                (fun d => d.status == "completed" || d.id == did)).length * 100)
            t.deliverables.length) := by
  have hfind : (t.deliverables.find? (fun d => d.id == did)).isSome := by
    rw [List.find?_isSome]
    obtain ⟨d, hd, hdid⟩ := hmem
    exact ⟨d, hd, by simp [hdid]⟩
  have hnone : ¬ ((t.deliverables.find? (fun d => d.id == did)).isNone = true) := by
    simp only [Option.isNone_iff_eq_none]
    intro h
    rw [h] at hfind
    simp at hfind
  refine ⟨taskSave
      { t with deliverables := setDeliverableCompleted t.deliverables did file,
               progress := { t.progress with percentage := Int.ofNat (jsRound
                 (((setDeliverableCompleted t.deliverables did file).filter
                     (fun d => d.status == "completed")).length * 100)
                 (setDeliverableCompleted t.deliverables did file).length) } },
    ?_, ?_, ?_, ?_, ?_⟩
  · unfold completeDeliverable
    rw [if_neg hnone]
  · exact setDeliverableCompleted_length t.deliverables did file
  · exact setDeliverableCompleted_target t.deliverables did file hnd
  · exact setDeliverableCompleted_other t.deliverables did file
  · show Int.ofNat (jsRound _ (setDeliverableCompleted t.deliverables did file).length) = _
    rw [setDeliverableCompleted_completed_count t.deliverables did file hnd,
        setDeliverableCompleted_length t.deliverables did file]

/-- A pending task with three pending deliverables (ids 1, 2, 3). -/
def demo3Task : Task :=
  ⟨5, some 9, "pending", ⟨0, 10, none, none⟩, ⟨20, []⟩,
   [⟨1, "report", "", "document", "pending", none⟩,
    ⟨2, "photos", "", "photo", "pending", none⟩,
    ⟨3, "video", "", "video", "pending", none⟩], ⟨30, 5, 35⟩⟩

/-- Witness for C7: completing deliverable 1 of 3 on a task whose
percentage had been 20 yields percentage 33 = round(100/3). -/
theorem completeDeliverable_spec_witness :
    (∃ d ∈ demo3Task.deliverables, d.id = 1)
      ∧ (demo3Task.deliverables.map (fun d => d.id)).Nodup
      ∧ (∃ q, completeDeliverable demo3Task 1 none = Except.ok q
          ∧ q.progress.percentage = 33) := by
  refine ⟨⟨⟨1, "report", "", "document", "pending", none⟩, by simp [demo3Task], rfl⟩,
          by simp [demo3Task], ?_⟩
  obtain ⟨q, h1, _, _, _, h5⟩ :=
    completeDeliverable_spec demo3Task 1 none
      ⟨⟨1, "report", "", "document", "pending", none⟩, by simp [demo3Task], rfl⟩
      (by simp [demo3Task])
  refine ⟨q, h1, ?_⟩
  rw [h5]
  rfl

/-- The data-model invariant of the claim: `timeline.completedDate`
is set exactly when the status is `completed`. -/
def completedDateInv (t : Task) : Prop :=
  t.timeline.completedDate.isSome = true ↔ t.status = "completed"

/-- The invariant checked on the payload of a successful
`completeDeliverable` (trivially true on an error). -/
def completedDateInvOnOk (r : Except String Task) : Prop :=
  match r with
  | .ok q => completedDateInv q
  | .error _ => True

/-- A completed task (with its `completedDate` stamped). -/
def demoCompletedTask : Task :=
  ⟨5, some 9, "completed", ⟨0, 10, some 8, none⟩, ⟨100, []⟩, [], ⟨30, 5, 35⟩⟩

/-- Counterexample to C8: a completed task satisfies the invariant,
yet after `assignTo` its status is `assigned` while `completedDate`
stays set, so the if-and-only-if fails after an operation the claim
covers. -/
theorem assignTo_breaks_completedDate_inv :
    completedDateInv demoCompletedTask
      ∧ (assignTo demoCompletedTask 2).status ≠ "completed"
      ∧ (assignTo demoCompletedTask 2).timeline.completedDate.isSome = true
      ∧ ¬ completedDateInv (assignTo demoCompletedTask 2) := by
  refine ⟨?_, ?_, rfl, ?_⟩
  · simp [completedDateInv, demoCompletedTask]
  · simp [assignTo, taskSave, demoCompletedTask]
  · simp [completedDateInv, assignTo, taskSave, demoCompletedTask]

theorem complete_completedDate (t : Task) (ah : Option Int) (now : Nat) :
    (complete t ah now).status = "completed"
      ∧ (complete t ah now).timeline.completedDate = some now := by
  unfold complete taskSave
  cases ah <;> exact ⟨rfl, rfl⟩

/-- C8 amended: the completed-date/status if-and-only-if invariant is
preserved by `updateProgress`, (re-)established by `complete`, and
preserved by `completeDeliverable`; `assignTo`, however, preserves it
only from tasks whose `completedDate` is unset — on a completed task it
leaves `completedDate` set while forcing status `assigned`, which is
exactly the counterexample. -/
theorem task_completedDate_invariant (t : Task) (pct : Int) (msg : String)
    (author uid did : Nat) (att : List String) (file : Option FileInfo)
    (ah : Option Int) (now : Nat)
    (hinv : completedDateInv t) :
    completedDateInv (updateProgress t pct msg author att now)
      ∧ completedDateInv (complete t ah now)
      ∧ completedDateInvOnOk (completeDeliverable t did file)
      ∧ (t.timeline.completedDate = none → completedDateInv (assignTo t uid)) := by
  refine ⟨?_, ?_, ?_, ?_⟩
  · by_cases h : 100 ≤ pct ∧ t.status ≠ "completed"
    · obtain ⟨hs, hd⟩ := updateProgress_transition t pct msg author att now h
      rw [completedDateInv, hs, hd]
      simp
    · obtain ⟨hs, hd⟩ := updateProgress_no_transition t pct msg author att now h
      rw [completedDateInv, hs, hd]
      exact hinv
  · obtain ⟨hs, hd⟩ := complete_completedDate t ah now
    rw [completedDateInv, hs, hd]
    simp
  · unfold completeDeliverable
    split
    · trivial
    · show completedDateInv (taskSave _)
      rw [completedDateInv]
      show t.timeline.completedDate.isSome = true ↔ t.status = "completed"
      exact hinv
  · intro hnone
    rw [completedDateInv]
    show t.timeline.completedDate.isSome = true ↔ "assigned" = "completed"
    rw [hnone]
    simp

/-- Witness for C8's amended invariant at a concrete pending task. -/
theorem task_completedDate_invariant_witness :
    completedDateInv (updateProgress demo3Task 40 reasonTaskCompleted 9 [] 3)
      ∧ completedDateInv (complete demo3Task none 3)
      ∧ completedDateInvOnOk (completeDeliverable demo3Task 1 none)
      ∧ (demo3Task.timeline.completedDate = none →
          completedDateInv (assignTo demo3Task 2)) :=
  task_completedDate_invariant demo3Task 40 reasonTaskCompleted 9 2 1 [] none none 3
    (by simp [completedDateInv, demo3Task])

/-- Counterexample to C9: on a task with zero deliverables,
`completeDeliverable` fails with the deliverable-not-found error — the
missing-deliverable guard fires before the percentage recomputation,
so no division by zero is reached. -/
theorem completeDeliverable_empty_counterexample :
    demoTask.deliverables = []
      ∧ completeDeliverable demoTask 1 none = Except.error errDeliverableNotFound :=
  ⟨rfl, rfl⟩

/-- C9 amended: for every task whose deliverables list is empty,
`completeDeliverable` (with any deliverable id and file) stops at the
deliverable-existence guard with the not-found error; the percentage
recomputation — the division by the deliverable count — is unreachable
in the zero-deliverables state. -/
theorem completeDeliverable_empty_guarded (t : Task) (did : Nat)
    (file : Option FileInfo) (h : t.deliverables = []) :
    completeDeliverable t did file = Except.error errDeliverableNotFound := by
  unfold completeDeliverable
  rw [h]
  rfl

/-- Witness for C9's amended claim at a concrete zero-deliverable task. -/
theorem completeDeliverable_empty_guarded_witness :
    demoTask.deliverables = []
      ∧ completeDeliverable demoTask 2 none = Except.error errDeliverableNotFound :=
  ⟨rfl, completeDeliverable_empty_guarded demoTask 2 none rfl⟩

/-- An active leaderboard user with the given point total. -/
def lbUser (pts : Int) : User :=
  ⟨⟨pts, []⟩, [], ⟨0, 0, 0, 0⟩, true⟩

/-- The spec's example population: active users with points
500, 300, 300, 100. -/
def demoLeaderboard : List User :=
  [lbUser 500, lbUser 300, lbUser 300, lbUser 100]

/-- C6: the rank route computes rank as one plus the number of active
users with a strictly greater metric value, and the percentile as
`Math.round(100 * (total - rank + 1) / total)` over the count of
active users with a positive metric, 0 when that count is 0; on the
example population [500, 300, 300, 100] a user with 300 points has
rank 2 and percentile 75. -/
theorem rank_percentile_spec (users : List User) (u : User) (m : Metric) :
    userRank users u m
        = 1 + users.countP (fun v => v.isActive && metricValue m u < metricValue m v)
      ∧ (activeWithMetric users m ≠ 0 →
          userPercentile users u m
            = jsRoundInt (((activeWithMetric users m : Int) - userRank users u m + 1) * 100)
                (activeWithMetric users m))
      ∧ (activeWithMetric users m = 0 → userPercentile users u m = 0)
      ∧ userRank demoLeaderboard (lbUser 300) Metric.points = 2
      ∧ userPercentile demoLeaderboard (lbUser 300) Metric.points = 75 := by
  refine ⟨?_, ?_, ?_, by decide, by decide⟩
  · rw [userRank, List.countP_eq_length_filter]
    omega
  · intro h
    rw [userPercentile]
    simp only [if_pos (Nat.pos_of_ne_zero h)]
  · intro h
    rw [userPercentile]
    simp [h]

theorem complete_assignedTo (t : Task) (ah : Option Int) (now : Nat) :
    (complete t ah now).assignedTo = t.assignedTo := by
  unfold complete taskSave
  cases ah <;> rfl

theorem complete_taskPoints (t : Task) (ah : Option Int) (now : Nat) :
    (complete t ah now).points.total = t.points.base + t.points.bonus := by
  unfold complete taskSave
  cases ah <;> rfl

theorem complete_project (t : Task) (ah : Option Int) (now : Nat) :
    (complete t ah now).project = t.project := by
  unfold complete taskSave
  cases ah <;> rfl

theorem addPoints_statistics (u : User) (a : Int) (r : String) (p : Option Nat) :
    (addPoints u a r p).statistics = u.statistics := rfl

/-- C10: whenever the completed task has an assignee, the complete
route credits that user with the task's total points
(`base + bonus`, recomputed by the save hook) under reason
`Task completed`, appending exactly one ledger entry, and increments
`statistics.tasksCompleted` by one — with no guard anywhere on the
task's prior status, so a second invocation on an already-completed
task credits the points again (crediting is not idempotent). -/
theorem completeRoute_credits (t : Task) (v : User) (ah : Option Int) (now : Nat)
    (hassigned : t.assignedTo.isSome = true) :
    (completeTaskRoute t v ah now).1 = complete t ah now
      ∧ (completeTaskRoute t v ah now).1.status = "completed"
      ∧ (completeTaskRoute t v ah now).2.points.total
        = v.points.total + (t.points.base + t.points.bonus)
      ∧ (completeTaskRoute t v ah now).2.points.earned
        = v.points.earned
            ++ [⟨t.points.base + t.points.bonus, reasonTaskCompleted, some t.project⟩]
      ∧ (completeTaskRoute t v ah now).2.statistics.tasksCompleted
        = v.statistics.tasksCompleted + 1 := by
  obtain ⟨uid, huid⟩ := Option.isSome_iff_exists.mp hassigned
  have hpt : ∀ w : User, ∀ a : Int, ∀ r : String, ∀ p : Option Nat,
      (addPoints w a r p).points.total = w.points.total + a :=
    fun w a r p => by rw [addPoints_points]
  have hpe : ∀ w : User, ∀ a : Int, ∀ r : String, ∀ p : Option Nat,
      (addPoints w a r p).points.earned = w.points.earned ++ [⟨a, r, p⟩] :=
    fun w a r p => by rw [addPoints_points]
  have hst : ∀ w : User, ∀ a : Int, ∀ r : String, ∀ p : Option Nat,
      (addPoints w a r p).statistics = w.statistics :=
    fun w a r p => rfl
  cases ah with
  | none =>
    have hsc : (complete t none now).assignedTo = some uid := by
      rw [complete_assignedTo, huid]
    refine ⟨?_, ?_, ?_, ?_, ?_⟩
    · simp [completeTaskRoute, hsc]
    · simp only [completeTaskRoute, hsc]
      exact (complete_completedDate t none now).1
    · simp [completeTaskRoute, hsc, hpt, complete_taskPoints]
    · simp [completeTaskRoute, hsc, hpe, complete_taskPoints, complete_project]
    · simp [completeTaskRoute, hsc, hst]
  | some h =>
    have hsc : (complete t (some h) now).assignedTo = some uid := by
      rw [complete_assignedTo, huid]
    refine ⟨?_, ?_, ?_, ?_, ?_⟩
    · simp [completeTaskRoute, hsc]
    · simp only [completeTaskRoute, hsc]
      exact (complete_completedDate t (some h) now).1
    · by_cases hz : h ≠ 0 <;>
        simp [completeTaskRoute, hsc, hz, hpt, complete_taskPoints]
    · by_cases hz : h ≠ 0 <;>
        simp [completeTaskRoute, hsc, hz, hpe, complete_taskPoints, complete_project]
    · by_cases hz : h ≠ 0 <;>
        simp [completeTaskRoute, hsc, hz, hst]

/-- Witness for C10 at a task that is already completed: the route
still credits the full task points and bumps the counter again. -/
theorem completeRoute_credits_witness :
    demoCompletedTask.assignedTo.isSome = true
      ∧ demoCompletedTask.status = "completed"
      ∧ (completeTaskRoute demoCompletedTask demoUser none 4).2.points.total
        = demoUser.points.total
            + (demoCompletedTask.points.base + demoCompletedTask.points.bonus)
      ∧ (completeTaskRoute demoCompletedTask demoUser none 4).2.statistics.tasksCompleted
        = demoUser.statistics.tasksCompleted + 1 :=
  ⟨rfl, rfl,
   (completeRoute_credits demoCompletedTask demoUser none 4 rfl).2.2.1,
   (completeRoute_credits demoCompletedTask demoUser none 4 rfl).2.2.2.2⟩

end SevaSetu
